import Mathlib

/-!
Shallow embedding of the Olympus/HADES multi-tier context memory manager
(`src/hades/src/memory_management/*`, `src/olympus/hades/src/memory_management/
memory_tier.py`, `src/hades/src/core/context/analyzer.py`,
`src/hades/src/core/search/hybrid.py`).

Modelling conventions:
- Python floats are modelled as exact rationals (`ℚ`).  Every claim checked
  here only involves arithmetic on small dyadic/decimal constants whose
  comparisons are exact in IEEE double as well (identical sub-expressions
  give bit-identical doubles, and distinct values are separated by far more
  than the rounding error), so the rational model decides every comparison
  the same way the Python floats do.
- Python dicts are insertion-ordered association lists with unique keys:
  assignment to a present key overwrites in place, assignment to an absent
  key appends.
- `asyncio.Lock` is non-reentrant.  In the purely sequential executions the
  claims are about, acquiring a free lock succeeds and acquiring a lock the
  same task already holds never completes.  Operations therefore return
  `Option`-like results where the "blocked" case models an `await` that
  never resolves.
- Exceptions are modelled explicitly where a claim depends on them
  (`Except`, or a dedicated constructor).
-/

/-- A Python runtime value as stored in the tiers: a string, an int, or None.
This is the payload type; truthiness mirrors Python (`""`, `0`, `None` are
falsy). -/
inductive PyVal where
  | str (s : String)
  | int (n : Int)
  | pnone
deriving DecidableEq, Repr

/-- Python truthiness of a `PyVal`. -/
def PyVal.truthy : PyVal → Bool
  | .str s => s ≠ ""
  | .int n => n ≠ 0
  | .pnone => false

/-- Truthiness of `dict.get(key)`: `None` (absent) is falsy, otherwise the
value's own truthiness decides. -/
def truthyOpt : Option PyVal → Bool
  | some v => v.truthy
  | none => false

/-- `d[k]` lookup on an insertion-ordered association list (Python dict). -/
def dget {α : Type} : List (String × α) → String → Option α
  | [], _ => none
  | (k, v) :: rest, key => if k = key then some v else dget rest key

/-- Whether an association list holds the key. -/
def dhas {α : Type} (d : List (String × α)) (key : String) : Bool :=
  (dget d key).isSome

/-- `d[k] = v` assignment on a Python dict: overwrite in place if the key is
present, append otherwise. -/
def dset {α : Type} : List (String × α) → String → α → List (String × α)
  | [], key, v => [(key, v)]
  | (k, w) :: rest, key, v =>
    if k = key then (k, v) :: rest else (k, w) :: dset rest key v

/-- `del d[k]` / `d.pop(k, None)` on a Python dict.  A real dict holds each
key at most once, so removing every occurrence from the association list is
extensionally the same as removing the one binding; on every state reachable
through `dset`/`ddel` the keys are in fact unique. -/
def ddel {α : Type} : List (String × α) → String → List (String × α)
  | [], _ => []
  | (k, w) :: rest, key => if k = key then ddel rest key else (k, w) :: ddel rest key

/-- Descending insertion of a rational into a descending-sorted list. -/
def insertDesc (x : ℚ) : List ℚ → List ℚ
  | [] => [x]
  | y :: ys => if y < x then x :: y :: ys else y :: insertDesc x ys

/-- `sorted(scores, reverse=True)`: descending sort.  Only the multiset of a
sorted prefix matters to the code (it reads one rank), so any sort agrees
with Python's stable Timsort here. -/
def sortDesc : List ℚ → List ℚ
  | [] => []
  | x :: xs => insertDesc x (sortDesc xs)

/-- Helper for `splitWs`: walks the character list accumulating the current
token (reversed). -/
def splitWsAux : List Char → List Char → List String
  | [], acc => if acc.isEmpty then [] else [String.mk acc.reverse]
  | c :: rest, acc =>
    if c = ' ' then
      if acc.isEmpty then splitWsAux rest []
      else String.mk acc.reverse :: splitWsAux rest []
    else splitWsAux rest (c :: acc)

/-- Python `str.split()` (no argument): split on runs of whitespace, dropping
empty pieces.  The repository only ever stores space-separated words, so
splitting on the space character is the relevant case. -/
def splitWs (s : String) : List String := splitWsAux s.data []

/-- Python `" ".join(tokens)`. -/
def joinSpace : List String → String
  | [] => ""
  | [t] => t
  | t :: rest => t ++ " " ++ joinSpace rest

/-- `ContextMetadata` from `memory_management/memory_tier.py` (the olympus
copy; the `src/hades` copy declares the first four fields only).  This
pydantic model is *not* frozen: its fields can be reassigned in place. -/
structure ContextMetadata where
  tokens : List String
  semantics : List (String × ℚ)
  last_access : ℚ
  access_count : Int
  vector_embedding : Option (List ℚ) := none
  relation_triples : Option (List (String × String × String)) := none
  position_encoding : Option (List ℚ) := none
  compression_ratio : Option Int := none
deriving DecidableEq, Repr

/-- `tokens.count(token)`: the number of occurrences of a token in the list
(Python `list.count`). -/
def countTok : List String → String → Nat
  | [], _ => 0
  | x :: xs, t => (if x = t then 1 else 0) + countTok xs t

/-- The per-token importance scores of `TokenCompressor.compress`:
`pos_score * 0.6 + freq_score * 0.4` with
`pos_score = 1.0 - min(i, len(tokens) - i - 1) / len(tokens)` and
`freq_score = tokens.count(token) / len(tokens)`. -/
def tokenScores (tokens : List String) : List ℚ :=
  let n := tokens.length
  tokens.enum.map (fun p =>
    (1 - (min p.1 (n - p.1 - 1) : ℚ) / n) * (6/10) +
      ((countTok tokens p.2 : ℚ) / n) * (4/10))

/-- `TokenCompressor.compress(tokens, ratio)` from
`src/olympus/hades/src/memory_management/memory_tier.py` (lines 80-108).
`max_ratio` is the constructor argument (default 16).  Scores are
`0.6 * position_score + 0.4 * frequency_score`; the threshold is the score at
0-based index `len(tokens) // ratio` of the descending sort and every token
scoring `>=` it is kept.  `none` models the `IndexError` raised when that
index is out of range (only possible for `ratio = 1`, never reached by the
repository, which always passes `ratio=4`). -/
def compress (max_ratio : Nat) (tokens : List String) ( ratio : Nat) :
    Option (List String × List ℚ) :=
  let r := if ratio > max_ratio then max_ratio else ratio
  if tokens.length ≤ r then
    some (tokens, List.replicate tokens.length 1)
  else
    let n := tokens.length
    let token_scores := tokenScores tokens
    let target_len := n / r
    match (sortDesc token_scores).get? target_len with
    | none => none
    | some threshold =>
      let kept := (tokens.zip token_scores).filter (fun p => threshold ≤ p.2)
      some (kept.map (fun p => p.1), kept.map (fun p => p.2))

/-- State of `ElysiumTier` (hot tier), `memory_tier.py`.  `MemoryTier.__init__`
sets `current_size = 0`; `locked` is the tier's `asyncio.Lock` (held = true).
No method of any tier ever assigns to `current_size` again. -/
structure ElysiumTier where
  max_size : ℚ
  current_size : ℚ
  data : List (String × PyVal)
  meta : List (String × ContextMetadata)
  locked : Bool
deriving DecidableEq, Repr

/-- `ElysiumTier(max_size)` constructor. -/
def ElysiumTier.init (max_size : ℚ) : ElysiumTier :=
  { max_size := max_size, current_size := 0, data := [], meta := [], locked := false }

/-- `ElysiumTier.store`: under the lock, refuse (`False`) when
`current_size >= max_size`, otherwise insert the value (and the metadata when
one is passed) and return `True`.  `none` models blocking forever on a lock
already held by the running task. -/
def elysiumStore (st : ElysiumTier) (key : String) (value : PyVal)
    (metadata : Option ContextMetadata) : Option (Bool × ElysiumTier) :=
  if st.locked then none
  else if st.max_size ≤ st.current_size then some (false, st)
  else
    let st1 := { st with data := dset st.data key value }
    match metadata with
    | some m => some (true, { st1 with meta := dset st1.meta key m })
    | none => some (true, st1)

/-- `ElysiumTier.retrieve`: a plain `self._data.get(key)`, no lock taken. -/
def elysiumRetrieve (st : ElysiumTier) (key : String) : Option PyVal :=
  dget st.data key

/-- `ElysiumTier.evict`: under the lock, delete the key from both maps when
present (`True`), else `False`. -/
def elysiumEvict (st : ElysiumTier) (key : String) : Option (Bool × ElysiumTier) :=
  if st.locked then none
  else if dhas st.data key then
    some (true, { st with data := ddel st.data key, meta := ddel st.meta key })
  else some (false, st)

/-- State of `AsphodelTier` (warm tier). -/
structure AsphodelTier where
  max_size : ℚ
  current_size : ℚ
  window_size : Nat
  data : List (String × PyVal)
  meta : List (String × ContextMetadata)
  locked : Bool
deriving DecidableEq, Repr

/-- `AsphodelTier(max_size, window_size)` constructor. -/
def AsphodelTier.init (max_size : ℚ) (window_size : Nat) : AsphodelTier :=
  { max_size := max_size, current_size := 0, window_size := window_size,
    data := [], meta := [], locked := false }

/-- `AsphodelTier.evict`: same shape as the elysium evict. -/
def asphodelEvict (st : AsphodelTier) (key : String) : Option (Bool × AsphodelTier) :=
  if st.locked then none
  else if dhas st.data key then
    some (true, { st with data := ddel st.data key, meta := ddel st.meta key })
  else some (false, st)

/-- `min(self._metadata.keys(), key=...last_access)`: the first key attaining
the minimal `last_access` (Python `min` keeps the earliest minimum), `none`
for an empty dict (where Python raises `ValueError`). -/
def minByLastAccess : List (String × ContextMetadata) → Option (String × ℚ)
  | [] => none
  | (k, m) :: rest =>
    match minByLastAccess rest with
    | none => some (k, m.last_access)
    | some (k2, v2) =>
      if m.last_access ≤ v2 then some (k, m.last_access) else some (k2, v2)

/-- Result of `AsphodelTier.store`.  `ok` is a normal return (always `True`);
`blocked` models the `await` that never resolves: at window capacity the
method, while holding `self._lock`, calls `await self.evict(oldest_key)`,
which tries to acquire the same non-reentrant `asyncio.Lock` again;
`raised` models the `ValueError` from `min()` when `self._metadata` is empty
while `self._data` is at capacity (the lock is released by `async with` on
the way out). -/
inductive AsphStoreRes where
  | ok (st : AsphodelTier)
  | blocked
  | raised (st : AsphodelTier)
deriving DecidableEq, Repr

/-- `AsphodelTier.store` (lines 72-85 of `src/hades/.../memory_tier.py`,
identical in the olympus copy). -/
def asphodelStore (st : AsphodelTier) (key : String) (value : PyVal)
    (metadata : Option ContextMetadata) : AsphStoreRes :=
  if st.locked then .blocked
  else
    let st1 := { st with locked := true }
    if st1.window_size ≤ st1.data.length then
      match minByLastAccess st1.meta with
      | none => .raised { st1 with locked := false }
      | some (oldest_key, _) =>
        match asphodelEvict st1 oldest_key with
        | none => .blocked
        | some (_, st2) =>
          -- dead continuation: `asphodelEvict` blocks because `st1.locked`
          let st3 := { st2 with data := dset st2.data key value }
          match metadata with
          | some m => .ok { st3 with meta := dset st3.meta key m, locked := false }
          | none => .ok { st3 with locked := false }
    else
      let st3 := { st1 with data := dset st1.data key value }
      match metadata with
      | some m => .ok { st3 with meta := dset st3.meta key m, locked := false }
      | none => .ok { st3 with locked := false }

/-- `AsphodelTier.retrieve`. -/
def asphodelRetrieve (st : AsphodelTier) (key : String) : Option PyVal :=
  dget st.data key

/-- State of `TartarusTier` (archive).  The hades manager constructs it with
`max_size = float(inf)`, modelled as `none`; no tartarus method reads it. -/
structure TartarusTier where
  max_size : Option ℚ
  current_size : ℚ
  data : List (String × PyVal)
  meta : List (String × ContextMetadata)
  locked : Bool
deriving DecidableEq, Repr

/-- Empty `TartarusTier`. -/
def TartarusTier.init (max_size : Option ℚ) : TartarusTier :=
  { max_size := max_size, current_size := 0, data := [], meta := [], locked := false }

/-- `TartarusTier.store` of `src/hades/src/memory_management/memory_tier.py`
(lines 101-106): unconditional insert under the lock, no compression. -/
def tartarusStoreHades (st : TartarusTier) (key : String) (value : PyVal)
    (metadata : Option ContextMetadata) : Option (Bool × TartarusTier) :=
  if st.locked then none
  else
    let st1 := { st with data := dset st.data key value }
    match metadata with
    | some m => some (true, { st1 with meta := dset st1.meta key m })
    | none => some (true, st1)

/-- `TartarusTier.store` of
`src/olympus/hades/src/memory_management/memory_tier.py` (lines 186-200):
for a string value it splits into tokens, compresses at ratio 4, joins the
kept tokens back, and *assigns in place* `metadata.compression_ratio = 4`
and `metadata.tokens = compressed_tokens` on the metadata object the caller
passed before storing that same object.  The third component of the result
is the caller's metadata object as it stands after the call, making the
in-place mutation observable in the embedding.  `none` models blocking on a
held lock (or the unreachable `IndexError` inside `compress`). -/
def tartarusStoreOly (st : TartarusTier) (key : String) (value : PyVal)
    (metadata : Option ContextMetadata) :
    Option (Bool × TartarusTier × Option ContextMetadata) :=
  if st.locked then none
  else
    match value with
    | .str s =>
      match compress 16 (splitWs s) 4 with
      | none => none
      | some (compressed_tokens, _scores) =>
        let value2 : PyVal := .str (joinSpace compressed_tokens)
        let metadata2 := metadata.map (fun m =>
          { m with compression_ratio := some 4, tokens := compressed_tokens })
        let st1 := { st with data := dset st.data key value2 }
        match metadata2 with
        | some m => some (true, { st1 with meta := dset st1.meta key m }, metadata2)
        | none => some (true, st1, metadata2)
    | v =>
      let st1 := { st with data := dset st.data key v }
      match metadata with
      | some m => some (true, { st1 with meta := dset st1.meta key m }, metadata)
      | none => some (true, st1, metadata)

/-- `TartarusTier.retrieve`. -/
def tartarusRetrieve (st : TartarusTier) (key : String) : Option PyVal :=
  dget st.data key

/-- `TartarusTier.get_metadata` (inherited `MemoryTier.get_metadata`). -/
def tartarusGetMetadata (st : TartarusTier) (key : String) : Option ContextMetadata :=
  dget st.meta key

/-- `TartarusTier.evict`. -/
def tartarusEvict (st : TartarusTier) (key : String) : Option (Bool × TartarusTier) :=
  if st.locked then none
  else if dhas st.data key then
    some (true, { st with data := ddel st.data key, meta := ddel st.meta key })
  else some (false, st)

/-- The external persistent store behind `LetheTier` (spec section 6's
Persistent Store collaborator), modelled as a key-value table plus failure
flags: a raised exception in `db.store`/`db.retrieve`/`db.delete` is what the
cold tier's `try/except` converts to `False`/`None`. -/
structure DbState where
  table : List (String × PyVal)
  failStore : Bool
  failRetrieve : Bool
  failDelete : Bool
deriving DecidableEq, Repr

/-- State of `LetheTier` (cold tier), `src/hades` version: all three methods
just delegate to the database connection inside `try/except`. -/
structure LetheTier where
  max_size : Option ℚ
  current_size : ℚ
  data : List (String × PyVal)
  meta : List (String × ContextMetadata)
  locked : Bool
  db : DbState
deriving DecidableEq, Repr

/-- Empty `LetheTier` over a given backing store. -/
def LetheTier.init (max_size : Option ℚ) (db : DbState) : LetheTier :=
  { max_size := max_size, current_size := 0, data := [], meta := [],
    locked := false, db := db }

/-- `LetheTier.store` (hades): `await self.db.store(...)` inside
`try/except`; a backend failure returns `False`. -/
def letheStore (st : LetheTier) (key : String) (value : PyVal)
    (_metadata : Option ContextMetadata) : Bool × LetheTier :=
  if st.db.failStore then (false, st)
  else (true, { st with db := { st.db with table := dset st.db.table key value } })

/-- `LetheTier.retrieve` (hades): `await self.db.retrieve(key)` inside
`try/except`; a backend failure returns `None`. -/
def letheRetrieve (st : LetheTier) (key : String) : Option PyVal :=
  if st.db.failRetrieve then none else dget st.db.table key

/-- `LetheTier.evict` (hades): `await self.db.delete(key)` inside
`try/except`; a backend failure returns `False`. -/
def letheEvict (st : LetheTier) (key : String) : Bool × LetheTier :=
  if st.db.failDelete then (false, st)
  else if dhas st.db.table key then
    (true, { st with db := { st.db with table := ddel st.db.table key } })
  else (false, st)

/-- The memory-management fields of `Settings` (`src/hades/src/core/config.py`):
`ELYSIUM_MAX_SIZE`, `ASPHODEL_MAX_SIZE`, `ASPHODEL_WINDOW_SIZE`, and the two
allocation thresholds with their defaults 0.2 and 0.5. -/
structure Settings where
  ELYSIUM_MAX_SIZE : ℚ
  ASPHODEL_MAX_SIZE : ℚ
  ASPHODEL_WINDOW_SIZE : Nat
  TARTARUS_RELEVANCE_THRESHOLD : ℚ := 2/10
  LETHE_PROMOTION_THRESHOLD : ℚ := 5/10
deriving Repr

/-- The defaults from `config.py`: 1 GiB, 10 GiB, 1000 items, 0.2, 0.5. -/
def Settings.default : Settings :=
  { ELYSIUM_MAX_SIZE := 1024 * 1024 * 1024,
    ASPHODEL_MAX_SIZE := 10 * 1024 * 1024 * 1024,
    ASPHODEL_WINDOW_SIZE := 1000 }

/-- `MemoryManager` (`src/hades/src/memory_management/manager.py`): the four
tiers plus the settings object the module reads. -/
structure MemoryManager where
  settings : Settings
  elysium : ElysiumTier
  asphodel : AsphodelTier
  tartarus : TartarusTier
  lethe : LetheTier
deriving Repr

/-- `MemoryManager.__init__(db_connection)`. -/
def MemoryManager.init (s : Settings) (db : DbState) : MemoryManager :=
  { settings := s,
    elysium := ElysiumTier.init s.ELYSIUM_MAX_SIZE,
    asphodel := AsphodelTier.init s.ASPHODEL_MAX_SIZE s.ASPHODEL_WINDOW_SIZE,
    tartarus := TartarusTier.init none,
    lethe := LetheTier.init none db }

/-- `MemoryManager._update_stats` only logs, except that its
`memory_utilization` expression divides by
`ELYSIUM_MAX_SIZE + ASPHODEL_MAX_SIZE`: it raises `ZeroDivisionError` exactly
when that sum is zero, and otherwise has no effect. -/
def updateStatsRaises (st : MemoryManager) : Bool :=
  st.settings.ELYSIUM_MAX_SIZE + st.settings.ASPHODEL_MAX_SIZE = 0

/-- Result of a manager operation: a normal return with the new state, or an
`await` that never resolves (a tier call blocked on its own lock). -/
inductive MRes (α : Type) where
  | ok (a : α) (st : MemoryManager)
  | blocked
deriving Repr

/-- `MemoryManager.store(key, value, metadata, tier)` (lines 76-103):
dispatch on the tier name, an unknown name logs and returns `False`;
afterwards `_update_stats()` runs inside the same `try`, so its
`ZeroDivisionError` is caught and turns the overall result into `False`
(the tier-level effects are already committed). -/
def managerStore (st : MemoryManager) (key : String) (value : PyVal)
    (metadata : Option ContextMetadata) (tier : Option String) : MRes Bool :=
  match tier with
  | some "elysium" =>
    match elysiumStore st.elysium key value metadata with
    | none => .blocked
    | some (b, e1) =>
      let st1 := { st with elysium := e1 }
      .ok (if updateStatsRaises st1 then false else b) st1
  | some "asphodel" =>
    match asphodelStore st.asphodel key value metadata with
    | .blocked => .blocked
    | .raised a1 => .ok false { st with asphodel := a1 }
    | .ok a1 =>
      let st1 := { st with asphodel := a1 }
      .ok (if updateStatsRaises st1 then false else true) st1
  | some "tartarus" =>
    match tartarusStoreHades st.tartarus key value metadata with
    | none => .blocked
    | some (b, t1) =>
      let st1 := { st with tartarus := t1 }
      .ok (if updateStatsRaises st1 then false else b) st1
  | some "lethe" =>
    let (b, l1) := letheStore st.lethe key value metadata
    let st1 := { st with lethe := l1 }
    .ok (if updateStatsRaises st1 then false else b) st1
  | _ => .ok false st

/-- `MemoryManager.retrieve`, cold-tier phase (lines 131-136): on a truthy
hit in lethe, store into tartarus (metadata `None`) and return the value
with tier name `lethe`; otherwise the overall miss `(None, None)`. -/
def managerRetrieveLethe (st : MemoryManager) (key : String) :
    MRes (Option PyVal × Option String) :=
  match letheRetrieve st.lethe key with
  | some v =>
    if v.truthy then
      match managerStore st key v none (some "tartarus") with
      | .blocked => .blocked
      | .ok _ st1 => .ok (some v, some "lethe") st1
    else .ok (none, none) st
  | none => .ok (none, none) st

/-- `MemoryManager.retrieve`, archive phase (lines 122-129): on a truthy hit
in tartarus, if metadata exists the code executes
`metadata.access_count += 1` — an in-place mutation of the object held in
tartarus' `_metadata` — then stores the same object into asphodel and evicts
the key from tartarus.  Walrus-`if` truthiness: a falsy stored value falls
through to the lethe phase. -/
def managerRetrieveTartarus (st : MemoryManager) (key : String) :
    MRes (Option PyVal × Option String) :=
  match tartarusRetrieve st.tartarus key with
  | some v =>
    if v.truthy then
      match tartarusGetMetadata st.tartarus key with
      | some m =>
        let m1 := { m with access_count := m.access_count + 1 }
        let st1 := { st with
          tartarus := { st.tartarus with meta := dset st.tartarus.meta key m1 } }
        match managerStore st1 key v (some m1) (some "asphodel") with
        | .blocked => .blocked
        | .ok _ st2 =>
          match tartarusEvict st2.tartarus key with
          | none => .blocked
          | some (_, t1) =>
            .ok (some v, some "tartarus") { st2 with tartarus := t1 }
      | none => .ok (some v, some "tartarus") st
    else managerRetrieveLethe st key
  | none => managerRetrieveLethe st key

/-- `MemoryManager.retrieve`, warm phase (lines 114-120): on a truthy hit in
asphodel with `metadata.access_count > 5`, store into elysium and then —
*unconditionally, whether or not elysium admitted the entry* — evict the key
from asphodel, before returning the value with tier name `asphodel`. -/
def managerRetrieveAsphodel (st : MemoryManager) (key : String) :
    MRes (Option PyVal × Option String) :=
  match asphodelRetrieve st.asphodel key with
  | some v =>
    if v.truthy then
      match dget st.asphodel.meta key with
      | some m =>
        if 5 < m.access_count then
          match managerStore st key v (some m) (some "elysium") with
          | .blocked => .blocked
          | .ok _ st1 =>
            match asphodelEvict st1.asphodel key with
            | none => .blocked
            | some (_, a1) =>
              .ok (some v, some "asphodel") { st1 with asphodel := a1 }
        else .ok (some v, some "asphodel") st
      | none => .ok (some v, some "asphodel") st
    else managerRetrieveTartarus st key
  | none => managerRetrieveTartarus st key

/-- `MemoryManager.retrieve(key)` (lines 105-136): walk the tiers in fixed
order elysium → asphodel → tartarus → lethe; each check is a walrus `if`, so
a falsy stored value (empty string, `0`, `None`) falls through. -/
def managerRetrieve (st : MemoryManager) (key : String) :
    MRes (Option PyVal × Option String) :=
  match elysiumRetrieve st.elysium key with
  | some v =>
    if v.truthy then .ok (some v, some "elysium") st
    else managerRetrieveAsphodel st key
  | none => managerRetrieveAsphodel st key

namespace Core

/-- `ContextMetadata` from `src/hades/src/core/context/models.py` — the
*frozen* pydantic model consumed by the allocation policy (distinct from the
tier-side `ContextMetadata`). -/
structure ContextMetadata where
  tokens : List String := []
  semantics : List (String × ℚ) := []
  relationships : List (String × List String) := []
  last_access : ℚ := 0
  access_count : Int := 0
  relevance_score : ℚ := 0
deriving DecidableEq, Repr

/-- `AnalysisResult` from `src/hades/src/core/context/models.py`. -/
structure AnalysisResult where
  metadata : ContextMetadata
  suggested_tier : String
  priority : String := "medium"
  ttl : Int := 3600
deriving DecidableEq, Repr

end Core

/-- `determine_allocation(metadata)` from
`src/hades/src/core/context/analyzer.py` (lines 134-186).  The thresholds
come from the `settings` object; the `except` handler is unreachable in this
pure body (nothing in it can raise), so it is not modelled. -/
def determine_allocation (s : Settings) (metadata : Core.ContextMetadata) :
    Core.AnalysisResult :=
  let relevance := metadata.relevance_score
  let complexity := (dget metadata.semantics "complexity").getD 0
  if s.TARTARUS_RELEVANCE_THRESHOLD < relevance then
    if 7/10 < complexity ∨ 5 < metadata.access_count then
      { metadata := metadata, suggested_tier := "elysium", priority := "high", ttl := 7200 }
    else
      { metadata := metadata, suggested_tier := "asphodel", priority := "medium", ttl := 3600 }
  else if s.LETHE_PROMOTION_THRESHOLD < relevance then
    { metadata := metadata, suggested_tier := "tartarus", priority := "low", ttl := 1800 }
  else
    { metadata := metadata, suggested_tier := "lethe", priority := "low", ttl := 300 }

/-- The safe-default result `analyze_context` returns on empty input or
internal failure: empty metadata, cold tier, low priority, ttl 60. -/
def safeDefaultAnalysis : Core.AnalysisResult :=
  { metadata := {}, suggested_tier := "lethe", priority := "low", ttl := 60 }

/-- Candidate metadata as the reranker reads it: a document metadata dict
with `semantics` (a dict, read for its keys), `related_to` (a list of keys)
and `last_access` (a float, `metadata.get("last_access", 0)`). -/
structure CandidateMeta where
  semantics : List (String × ℚ) := []
  related_to : List String := []
  last_access : ℚ := 0
deriving DecidableEq, Repr

/-- Deduplication of a key list (keeping one representative per element;
which one is irrelevant, only the cardinality of the set is ever used). -/
def dedupStr : List String → List String
  | [] => []
  | x :: xs => if x ∈ xs then dedupStr xs else x :: dedupStr xs

/-- `len(set(a) & set(b))` where both sides are key collections. -/
def interCard (a b : List String) : Nat :=
  ((dedupStr a).filter (fun x => decide (x ∈ b))).length

/-- `calculate_context_score(metadata, context, memory_items)` from
`src/hades/src/core/search/hybrid.py` (lines 241-273).  The module's import
block (lines 14-22) does not import `time`, yet line 266 evaluates
`time.time()`; so whenever `metadata.get("last_access", 0)` is truthy
(non-zero) the body raises `NameError`, the `except Exception` handler
catches it and the function returns `0.0`, discarding the semantic and
relationship terms already accumulated.  With a falsy `last_access` the
recency branch is skipped and the accumulated score is returned. -/
def calculate_context_score {β : Type} (metadata : CandidateMeta)
    (context : Core.AnalysisResult) (memory_items : List (String × β)) : ℚ :=
  let semantic_overlap :=
    interCard (metadata.semantics.map (fun p => p.1))
      (context.metadata.semantics.map (fun p => p.1))
  let score1 : ℚ :=
    if semantic_overlap ≠ 0 then
      (4/10) * ((semantic_overlap : ℚ) / (context.metadata.semantics.length : ℚ))
    else 0
  let relationship_overlap :=
    interCard metadata.related_to (memory_items.map (fun p => p.1))
  let score2 : ℚ :=
    if relationship_overlap ≠ 0 then
      (4/10) * ((relationship_overlap : ℚ) / (memory_items.length : ℚ))
    else 0
  if metadata.last_access ≠ 0 then 0
  else score1 + score2

/-- The context score as the spec states it (spec section 4.6 step 5, claim
C7): `0.4 * semantic_overlap_ratio + 0.4 * relationship_overlap_ratio +
0.2 * recency_factor` with `recency_factor = 1 / (1 + (now - last_access)/3600)`,
each overlap ratio being 0 when its denominator is 0.  Written from the
spec's words, for comparison against `calculate_context_score`. -/
def contextScoreSpec {β : Type} (now : ℚ) (metadata : CandidateMeta)
    (context : Core.AnalysisResult) (memory_items : List (String × β)) : ℚ :=
  let semRatio : ℚ :=
    if context.metadata.semantics.length = 0 then 0
    else (interCard (metadata.semantics.map (fun p => p.1))
      (context.metadata.semantics.map (fun p => p.1)) : ℚ) /
      (context.metadata.semantics.length : ℚ)
  let relRatio : ℚ :=
    if memory_items.length = 0 then 0
    else (interCard metadata.related_to (memory_items.map (fun p => p.1)) : ℚ) /
      (memory_items.length : ℚ)
  let recency : ℚ := 1 / (1 + (now - metadata.last_access) / 3600)
  (4/10) * semRatio + (4/10) * relRatio + (2/10) * recency

/-- A row of the external vector index's result set:
`(id, vector_score, metadata)`. -/
structure Cand where
  rid : String
  vector_score : ℚ
  meta : CandidateMeta
deriving DecidableEq, Repr

/-- A reranked row: `(id, combined_score, metadata, context_score)`, the
tuple `hybrid_search` re-labels into its result dicts. -/
structure RankedCand where
  rid : String
  combined_score : ℚ
  meta : CandidateMeta
  context_score : ℚ
deriving DecidableEq, Repr

/-- Descending insertion by key for the reranker's sort. -/
def insertDescBy {α : Type} (f : α → ℚ) (x : α) : List α → List α
  | [] => [x]
  | y :: ys => if f y < f x then x :: y :: ys else y :: insertDescBy f x ys

/-- `list.sort(key=..., reverse=True)`. -/
def sortDescBy {α : Type} (f : α → ℚ) : List α → List α
  | [] => []
  | x :: xs => insertDescBy f x (sortDescBy f xs)

/-- Fault-injection switches for `hybrid_search`'s steps: `true` means the
named step's body raises.  Each step in the source wraps its body in its own
`try/except`; failure of the external collaborator the step calls is the
reachable way for that body to raise, so the embedding injects it as a flag
and reproduces each handler's recovery value. -/
structure HybridFaults where
  analyzeF : Bool := false
  embedF : Bool := false
  memoryF : Bool := false
  filterF : Bool := false
  searchF : Bool := false
  rerankF : Bool := false
deriving DecidableEq, Repr

/-- `analyze_context` never raises: its own `except` returns the safe
default, which is what `hybrid_search` continues with when analysis fails. -/
def analyzeContextStep (fault : Bool) (result : Core.AnalysisResult) :
    Core.AnalysisResult :=
  if fault then safeDefaultAnalysis else result

/-- `get_query_vector` (hybrid.py lines 118-141): on any failure the handler
returns `None`; otherwise the provider's embedding (itself possibly `None`). -/
def getQueryVector (fault : Bool) (embedResult : Option (List ℚ)) :
    Option (List ℚ) :=
  if fault then none else embedResult

/-- `get_memory_context` (lines 143-164): iterate the analysis'
`relationships["references"]` keys, calling `memory_manager.retrieve(key)`.
Note the walrus test is on the returned *tuple* `(value, tier)`, which is
always truthy in Python, so every reference key is added.  The handler
returns the empty dict on failure. -/
def getMemoryContext (fault : Bool)
    (retrieveO : String → Option PyVal × Option String)
    (context : Core.AnalysisResult) : List (String × (Option PyVal × Option String)) :=
  if fault then []
  else
    ((dget context.metadata.relationships "references").getD []).foldl
      (fun items key => dset items key (retrieveO key)) []

/-- The metadata filter `build_metadata_filter` assembles (lines 166-195):
a relevance floor, a semantic-type membership list when the analysis has
semantics, and a `related_to` membership list (the memory-context keys) when
it has relationships. -/
structure MetadataFilter where
  relevance_score_min : Option ℚ := none
  semantic_type_in : Option (List String) := none
  related_to_in : Option (List String) := none
deriving DecidableEq, Repr

/-- `build_metadata_filter` (lines 166-195); its handler returns the empty
filter on failure. -/
def build_metadata_filter {β : Type} (s : Settings) (fault : Bool)
    (context : Core.AnalysisResult) (memory_items : List (String × β)) :
    MetadataFilter :=
  if fault then {}
  else
    { relevance_score_min := some s.TARTARUS_RELEVANCE_THRESHOLD,
      semantic_type_in :=
        if context.metadata.semantics.isEmpty then none
        else some (context.metadata.semantics.map (fun p => p.1)),
      related_to_in :=
        if context.metadata.relationships.isEmpty then none
        else some (memory_items.map (fun p => p.1)) }

/-- `rerank_results` (lines 197-239): per candidate compute the context
score, combine as `(1 - boost) * vector + boost * context`, sort descending
by combined score.  Its own handler returns the fallback
`[(id, vector_score, metadata, 0.0)]` list — it degrades, it does not
re-raise and it does not return the empty list. -/
def rerank_results {β : Type} (fault : Bool) (vector_results : List Cand)
    (context : Core.AnalysisResult) (memory_items : List (String × β))
    (context_boost : ℚ) : List RankedCand :=
  if fault then
    vector_results.map (fun r =>
      { rid := r.rid, combined_score := r.vector_score, meta := r.meta,
        context_score := 0 })
  else
    sortDescBy (fun r => r.combined_score)
      (vector_results.map (fun r =>
        let context_score := calculate_context_score r.meta context memory_items
        { rid := r.rid,
          combined_score := (1 - context_boost) * r.vector_score +
            context_boost * context_score,
          meta := r.meta, context_score := context_score }))

/-- The body of `hybrid_search` (lines 58-112), i.e. everything inside the
outer `try`: `throw` is a raised exception reaching that `try`.  External
collaborators are parameters: the analysis result, the embedding provider's
answer, the memory manager's `retrieve`, and the vector index's `search`
(which receives the query vector, `top_k * 2` and the metadata filter). -/
def hybridSearchBody (s : Settings) (faults : HybridFaults)
    (analysisResult : Core.AnalysisResult) (embedResult : Option (List ℚ))
    (retrieveO : String → Option PyVal × Option String)
    (searchO : List ℚ → Nat → MetadataFilter → List Cand)
    (top_k : Nat) (min_relevance context_boost : ℚ) :
    Except Unit (List RankedCand) :=
  let context_analysis := analyzeContextStep faults.analyzeF analysisResult
  match getQueryVector faults.embedF embedResult with
  | none => .ok []
  | some query_vector =>
    let memory_items := getMemoryContext faults.memoryF retrieveO context_analysis
    let metadata_filter := build_metadata_filter s faults.filterF context_analysis memory_items
    if faults.searchF then .error ()
    else
      let vector_results := searchO query_vector (top_k * 2) metadata_filter
      let results := rerank_results faults.rerankF vector_results
        context_analysis memory_items context_boost
      .ok ((results.filter (fun r => min_relevance ≤ r.combined_score)).take top_k)

/-- `hybrid_search` (lines 36-116): the whole body sits in `try/except`,
whose handler returns the empty list; the result is therefore always a
normal return (`Except.ok`). -/
def hybrid_search (s : Settings) (faults : HybridFaults)
    (analysisResult : Core.AnalysisResult) (embedResult : Option (List ℚ))
    (retrieveO : String → Option PyVal × Option String)
    (searchO : List ℚ → Nat → MetadataFilter → List Cand)
    (top_k : Nat) (min_relevance context_boost : ℚ) :
    Except Unit (List RankedCand) :=
  match hybridSearchBody s faults analysisResult embedResult retrieveO searchO
      top_k min_relevance context_boost with
  | .error _ => .ok []
  | .ok l => .ok l

/-- One tier-level call in a sequence: `store`, `retrieve` or `evict`. -/
inductive TierOp where
  | opStore (key : String) (value : PyVal) (metadata : Option ContextMetadata)
  | opRetrieve (key : String)
  | opEvict (key : String)
deriving DecidableEq, Repr

/-- Sequential execution of tier calls on the hot tier, recording every
`store` result.  `none` models a call that never returns (blocked lock). -/
def elysiumRun : ElysiumTier → List TierOp → Option (ElysiumTier × List Bool)
  | st, [] => some (st, [])
  | st, .opStore k v m :: ops =>
    match elysiumStore st k v m with
    | none => none
    | some (b, st1) => (elysiumRun st1 ops).map (fun p => (p.1, b :: p.2))
  | st, .opRetrieve _ :: ops => elysiumRun st ops
  | st, .opEvict k :: ops =>
    match elysiumEvict st k with
    | none => none
    | some (_, st1) => elysiumRun st1 ops

/-- Sequential execution of tier calls on the warm tier; `none` models a
blocked lock or an uncaught `ValueError` aborting the sequence. -/
def asphodelRun : AsphodelTier → List TierOp → Option AsphodelTier
  | st, [] => some st
  | st, .opStore k v m :: ops =>
    match asphodelStore st k v m with
    | .ok st1 => asphodelRun st1 ops
    | .blocked => none
    | .raised _ => none
  | st, .opRetrieve _ :: ops => asphodelRun st ops
  | st, .opEvict k :: ops =>
    match asphodelEvict st k with
    | none => none
    | some (_, st1) => asphodelRun st1 ops

/-- Sequential execution of tier calls on the archive tier (hades copy). -/
def tartarusRun : TartarusTier → List TierOp → Option TartarusTier
  | st, [] => some st
  | st, .opStore k v m :: ops =>
    match tartarusStoreHades st k v m with
    | none => none
    | some (_, st1) => tartarusRun st1 ops
  | st, .opRetrieve _ :: ops => tartarusRun st ops
  | st, .opEvict k :: ops =>
    match tartarusEvict st k with
    | none => none
    | some (_, st1) => tartarusRun st1 ops

/-- Sequential execution of tier calls on the cold tier. -/
def letheRun : LetheTier → List TierOp → LetheTier
  | st, [] => st
  | st, .opStore k v m :: ops => letheRun (letheStore st k v m).2 ops
  | st, .opRetrieve _ :: ops => letheRun st ops
  | st, .opEvict k :: ops => letheRun (letheEvict st k).2 ops

/-- Projection of a manager result onto its returned value. -/
def mresVal {α : Type} : MRes α → Option α
  | .ok a _ => some a
  | .blocked => none

/-- Projection of a manager result onto the post-state. -/
def mresState {α : Type} : MRes α → Option MemoryManager
  | .ok _ st => some st
  | .blocked => none

/-- A concrete manager whose hot tier rejects every store
(`ELYSIUM_MAX_SIZE = 0`, so `current_size >= max_size` holds from the start)
while the warm tier holds `"k" -> "v"` with `access_count = 6`. -/
def c3RejectState : MemoryManager :=
  { settings := { ELYSIUM_MAX_SIZE := 0, ASPHODEL_MAX_SIZE := 8,
                  ASPHODEL_WINDOW_SIZE := 1000 },
    elysium := ElysiumTier.init 0,
    asphodel := { AsphodelTier.init 8 1000 with
      data := [("k", PyVal.str "v")],
      meta := [("k", { tokens := [], semantics := [], last_access := 0,
                       access_count := 6 })] },
    tartarus := TartarusTier.init none,
    lethe := LetheTier.init none
      { table := [], failStore := false, failRetrieve := false,
        failDelete := false } }

/-- The same configuration with a hot tier that admits
(`ELYSIUM_MAX_SIZE = 1`). -/
def c3AdmitState : MemoryManager :=
  { c3RejectState with
    settings := { ELYSIUM_MAX_SIZE := 1, ASPHODEL_MAX_SIZE := 8,
                  ASPHODEL_WINDOW_SIZE := 1000 },
    elysium := ElysiumTier.init 1 }

theorem dget_dset_self {α : Type} (d : List (String × α)) (k : String) (v : α) :
    dget (dset d k v) k = some v := by
  induction d with
  | nil => simp [dset, dget]
  | cons hd tl ih =>
    obtain ⟨k1, v1⟩ := hd
    by_cases h : k1 = k
    · simp [dset, dget, h]
    · simp [dset, dget, h, ih]

theorem dget_dset_ne {α : Type} (d : List (String × α)) (k k' : String) (v : α)
    (h : k' ≠ k) : dget (dset d k v) k' = dget d k' := by
  induction d with
  | nil => simp [dset, dget, Ne.symm h]
  | cons hd tl ih =>
    obtain ⟨k1, v1⟩ := hd
    by_cases h1 : k1 = k
    · subst h1
      simp [dset, dget, Ne.symm h]
    · simp only [dset, if_neg h1]
      by_cases h2 : k1 = k'
      · simp [dget, h2]
      · simp [dget, h2, ih]

theorem dget_ddel_self {α : Type} (d : List (String × α)) (k : String) :
    dget (ddel d k) k = none := by
  induction d with
  | nil => simp [ddel, dget]
  | cons hd tl ih =>
    obtain ⟨k1, v1⟩ := hd
    by_cases h1 : k1 = k
    · simp [ddel, h1, ih]
    · simp [ddel, dget, h1, ih]

theorem dget_ddel_ne {α : Type} (d : List (String × α)) (k k' : String)
    (h : k' ≠ k) : dget (ddel d k) k' = dget d k' := by
  induction d with
  | nil => simp [ddel]
  | cons hd tl ih =>
    obtain ⟨k1, v1⟩ := hd
    by_cases h1 : k1 = k
    · subst h1
      simp [ddel, dget, Ne.symm h, ih]
    · simp [ddel, dget, h1, ih]

theorem insertDesc_length (x : ℚ) (l : List ℚ) :
    (insertDesc x l).length = l.length + 1 := by
  induction l with
  | nil => simp [insertDesc]
  | cons y ys ih =>
    by_cases h : y < x
    · simp [insertDesc, h]
    · simp [insertDesc, h, ih]

theorem sortDesc_length (l : List ℚ) : (sortDesc l).length = l.length := by
  induction l with
  | nil => simp [sortDesc]
  | cons x xs ih => simp [sortDesc, insertDesc_length, ih]

/-- Claim C6: with the default thresholds (0.2 and 0.5) the allocation
policy can never return the archive tier: whenever the first test
`relevance_score > 0.2` fails, the second test `relevance_score > 0.5`
cannot succeed, so every output tier is hot, warm or cold. -/
theorem claim_C6_archive_branch_dead (md : Core.ContextMetadata) :
    (determine_allocation Settings.default md).suggested_tier ≠ "tartarus" ∧
    ((determine_allocation Settings.default md).suggested_tier = "elysium" ∨
      (determine_allocation Settings.default md).suggested_tier = "asphodel" ∨
      (determine_allocation Settings.default md).suggested_tier = "lethe") := by
  unfold determine_allocation
  by_cases h1 : Settings.default.TARTARUS_RELEVANCE_THRESHOLD < md.relevance_score
  · by_cases h2 : (7:ℚ)/10 < (dget md.semantics "complexity").getD 0 ∨
        5 < md.access_count
    · simp [h1, h2]
    · simp [h1, h2]
  · have h3 : ¬ Settings.default.LETHE_PROMOTION_THRESHOLD < md.relevance_score := by
      simp only [Settings.default] at h1 ⊢
      intro hcon
      exact h1 (by norm_num at hcon ⊢; linarith)
    simp [h1, h3]

/-- Claim C5, counterexample: `compress(["a".."h"], ratio=4)` keeps 4 tokens,
not 1, 2 or 3 as the claim allows (target `8/4 = 2` plus or minus 1).  The
threshold is the third-highest score 23/40, and the symmetric position
scores tie in pairs, so the four tokens "a", "b", "g", "h" all pass it. -/
theorem claim_C5_counterexample :
    (compress 16 ["a", "b", "c", "d", "e", "f", "g", "h"] 4).map
        (fun p => p.1.length) = some 4 ∧
      (4 ≠ 1 ∧ 4 ≠ 2 ∧ 4 ≠ 3) := by
  constructor
  · norm_num +decide [compress, tokenScores, sortDesc, insertDesc, List.enum,
      List.enumFrom, countTok, List.get?]
  · exact ⟨by decide, by decide, by decide⟩

/-- Claim C5 as amended: `compress(["a".."h"], ratio=4)` returns exactly the
four tokens `["a","b","g","h"]` with scores `[0.65, 0.575, 0.575, 0.65]`;
the threshold — the score at 0-based rank `8 // 4 = 2` of the full
descending sort — is `0.575 = 23/40`, and every returned token's importance
score is at least that threshold. -/
theorem claim_C5_amended :
    compress 16 ["a", "b", "c", "d", "e", "f", "g", "h"] 4 =
        some (["a", "b", "g", "h"], [13/20, 23/40, 23/40, 13/20]) ∧
      (sortDesc (tokenScores ["a", "b", "c", "d", "e", "f", "g", "h"])).get?
          (8 / 4) = some (23/40) ∧
      ([(13:ℚ)/20, 23/40, 23/40, 13/20].all fun q => decide ((23:ℚ)/40 ≤ q)) = true := by
  refine ⟨?_, ?_, ?_⟩
  · norm_num +decide [compress, tokenScores, sortDesc, insertDesc, List.enum,
      List.enumFrom, countTok, List.get?]
  · norm_num +decide [tokenScores, sortDesc, insertDesc, List.enum,
      List.enumFrom, countTok, List.get?]
  · norm_num [List.all]

/-- Claim C7: the import block of `hybrid.py` (lines 14-22) never imports
`time`, so for every candidate whose `last_access` is non-zero the reference
to `time.time()` on line 266 raises `NameError`, the handler returns `0.0`,
and the context score is 0 rather than the weighted sum the claim (and the
spec) state: on a candidate with full semantic and relationship overlap and
`last_access = 3600` at `now = 7200` the code yields 0 while the spec's
formula yields `0.4 + 0.4 + 0.2 * (1/2) = 9/10`. -/
theorem claim_C7_recency_term_unreachable :
    calculate_context_score
        { semantics := [("s1", 1)], related_to := ["m1"], last_access := 3600 }
        { metadata := { semantics := [("s1", 1)] }, suggested_tier := "lethe" }
        [("m1", PyVal.int 1)] = 0 ∧
      contextScoreSpec 7200
        { semantics := [("s1", 1)], related_to := ["m1"], last_access := 3600 }
        { metadata := { semantics := [("s1", 1)] }, suggested_tier := "lethe" }
        [("m1", PyVal.int 1)] = 9/10 ∧
      (0 : ℚ) ≠ 9/10 := by
  refine ⟨?_, ?_, by norm_num⟩
  · norm_num [calculate_context_score]
  · norm_num +decide [contextScoreSpec, interCard, dedupStr]

/-- Claim C2: the warm tier cannot evict at capacity at all — `store` holds
`self._lock` and then calls `await self.evict(oldest_key)`, which tries to
acquire the same non-reentrant `asyncio.Lock`, so the call never completes.
At window capacity 1 with one stored item, a second `store` blocks forever
instead of evicting the oldest item and inserting the new one. -/
theorem claim_C2_store_at_capacity_blocks :
    asphodelStore
      { max_size := 10, current_size := 0, window_size := 1,
        data := [("a", PyVal.str "va")],
        meta := [("a", { tokens := [], semantics := [],
                         last_access := 1, access_count := 1 })],
        locked := false }
      "b" (PyVal.str "vb")
      (some { tokens := [], semantics := [],
              last_access := 2, access_count := 1 }) = AsphStoreRes.blocked := by
  rfl

/-- Claim C1: admission control on the hot tier never fires — no code path
updates `current_size`, so with `max_size = 1` two stores both return `True`,
`current_size` stays 0 and both entries are kept; a store whose admission
exceeds capacity is not rejected and a full tier keeps accepting. -/
theorem claim_C1_admission_check_dead :
    (elysiumRun (ElysiumTier.init 1)
        [TierOp.opStore "a" (PyVal.str "x") none,
          TierOp.opStore "b" (PyVal.str "y") none]).map
      (fun p => (p.2, p.1.current_size, p.1.data.length)) =
      some ([true, true], 0, 2) := by
  rfl

theorem elysiumStore_pres (st : ElysiumTier) (k : String) (v : PyVal)
    (m : Option ContextMetadata) (b : Bool) (st1 : ElysiumTier)
    (h : elysiumStore st k v m = some (b, st1)) :
    st1.current_size = st.current_size ∧ st1.locked = st.locked ∧
      st1.max_size = st.max_size := by
  unfold elysiumStore at h
  by_cases hl : st.locked
  · simp [hl] at h
  · by_cases hc : st.max_size ≤ st.current_size
    · simp [hl, hc] at h
      obtain ⟨-, rfl⟩ := h
      exact ⟨rfl, rfl, rfl⟩
    · simp only [Bool.not_eq_true] at hl
      cases m with
      | some mm =>
        simp [hl, hc] at h
        obtain ⟨-, rfl⟩ := h
        exact ⟨rfl, hl.symm, rfl⟩
      | none =>
        simp [hl, hc] at h
        obtain ⟨-, rfl⟩ := h
        exact ⟨rfl, hl.symm, rfl⟩

theorem elysiumEvict_pres (st : ElysiumTier) (k : String) (b : Bool)
    (st1 : ElysiumTier) (h : elysiumEvict st k = some (b, st1)) :
    st1.current_size = st.current_size ∧ st1.locked = st.locked ∧
      st1.max_size = st.max_size := by
  unfold elysiumEvict at h
  by_cases hl : st.locked
  · simp [hl] at h
  · simp only [Bool.not_eq_true] at hl
    by_cases hd : dhas st.data k
    · simp [hl, hd] at h
      obtain ⟨-, rfl⟩ := h
      exact ⟨rfl, hl.symm, rfl⟩
    · simp [hl, hd] at h
      obtain ⟨-, rfl⟩ := h
      exact ⟨rfl, rfl, rfl⟩

theorem asphodelStore_pres_ok (st : AsphodelTier) (k : String) (v : PyVal)
    (m : Option ContextMetadata) (st1 : AsphodelTier)
    (h : asphodelStore st k v m = AsphStoreRes.ok st1) :
    st1.current_size = st.current_size ∧ st1.locked = st.locked ∧
      st1.max_size = st.max_size ∧ st1.window_size = st.window_size := by
  unfold asphodelStore at h
  by_cases hl : st.locked
  · simp [hl] at h
  · simp only [Bool.not_eq_true] at hl
    by_cases hw : st.window_size ≤ st.data.length
    · rcases hmin : minByLastAccess st.meta with _ | ⟨ok, ov⟩
      · simp [hl, hw, hmin] at h
      · simp [hl, hw, hmin, asphodelEvict] at h
    · cases m with
      | some mm =>
        simp [hl, hw] at h
        rw [← h]
        exact ⟨rfl, hl.symm, rfl, rfl⟩
      | none =>
        simp [hl, hw] at h
        rw [← h]
        exact ⟨rfl, hl.symm, rfl, rfl⟩

theorem asphodelStore_pres_raised (st : AsphodelTier) (k : String) (v : PyVal)
    (m : Option ContextMetadata) (st1 : AsphodelTier)
    (h : asphodelStore st k v m = AsphStoreRes.raised st1) :
    st1.current_size = st.current_size := by
  unfold asphodelStore at h
  by_cases hl : st.locked
  · simp [hl] at h
  · simp only [Bool.not_eq_true] at hl
    by_cases hw : st.window_size ≤ st.data.length
    · rcases hmin : minByLastAccess st.meta with _ | ⟨ok, ov⟩
      · simp [hl, hw, hmin] at h
        rw [← h]
      · simp [hl, hw, hmin, asphodelEvict] at h
    · cases m with
      | some mm => simp [hl, hw] at h
      | none => simp [hl, hw] at h

theorem asphodelEvict_pres (st : AsphodelTier) (k : String) (b : Bool)
    (st1 : AsphodelTier) (h : asphodelEvict st k = some (b, st1)) :
    st1.current_size = st.current_size ∧ st1.locked = st.locked ∧
      st1.max_size = st.max_size ∧ st1.window_size = st.window_size := by
  unfold asphodelEvict at h
  by_cases hl : st.locked
  · simp [hl] at h
  · simp only [Bool.not_eq_true] at hl
    by_cases hd : dhas st.data k
    · simp [hl, hd] at h
      obtain ⟨-, rfl⟩ := h
      exact ⟨rfl, hl.symm, rfl, rfl⟩
    · simp [hl, hd] at h
      obtain ⟨-, rfl⟩ := h
      exact ⟨rfl, rfl, rfl, rfl⟩

theorem tartarusStoreHades_pres (st : TartarusTier) (k : String) (v : PyVal)
    (m : Option ContextMetadata) (b : Bool) (st1 : TartarusTier)
    (h : tartarusStoreHades st k v m = some (b, st1)) :
    st1.current_size = st.current_size ∧ st1.locked = st.locked := by
  unfold tartarusStoreHades at h
  by_cases hl : st.locked
  · simp [hl] at h
  · simp only [Bool.not_eq_true] at hl
    cases m with
    | some mm =>
      simp [hl] at h
      obtain ⟨-, rfl⟩ := h
      exact ⟨rfl, hl.symm⟩
    | none =>
      simp [hl] at h
      obtain ⟨-, rfl⟩ := h
      exact ⟨rfl, hl.symm⟩

theorem tartarusEvict_pres (st : TartarusTier) (k : String) (b : Bool)
    (st1 : TartarusTier) (h : tartarusEvict st k = some (b, st1)) :
    st1.current_size = st.current_size ∧ st1.locked = st.locked := by
  unfold tartarusEvict at h
  by_cases hl : st.locked
  · simp [hl] at h
  · simp only [Bool.not_eq_true] at hl
    by_cases hd : dhas st.data k
    · simp [hl, hd] at h
      obtain ⟨-, rfl⟩ := h
      exact ⟨rfl, hl.symm⟩
    · simp [hl, hd] at h
      obtain ⟨-, rfl⟩ := h
      exact ⟨rfl, rfl⟩

theorem letheStore_pres (st : LetheTier) (k : String) (v : PyVal)
    (m : Option ContextMetadata) :
    (letheStore st k v m).2.current_size = st.current_size := by
  unfold letheStore
  by_cases hf : st.db.failStore <;> simp [hf]

theorem letheEvict_pres (st : LetheTier) (k : String) :
    (letheEvict st k).2.current_size = st.current_size := by
  unfold letheEvict
  by_cases hf : st.db.failDelete
  · simp [hf]
  · by_cases hd : dhas st.db.table k <;> simp [hf, hd]

theorem elysiumRun_size (ops : List TierOp) :
    ∀ (st st1 : ElysiumTier) (rs : List Bool),
      elysiumRun st ops = some (st1, rs) → st1.current_size = st.current_size := by
  induction ops with
  | nil =>
    intro st st1 rs h
    simp [elysiumRun] at h
    rw [← h.1]
  | cons op rest ih =>
    intro st st1 rs h
    cases op with
    | opStore k v m =>
      simp only [elysiumRun] at h
      rcases hs : elysiumStore st k v m with _ | ⟨b, st2⟩ <;> rw [hs] at h
      · simp at h
      · simp at h
        obtain ⟨st3, rs3, hr, hst, hrs⟩ := h
        rw [← hst]
        exact (ih _ _ _ hr).trans (elysiumStore_pres _ _ _ _ _ _ hs).1
    | opRetrieve k =>
      simp only [elysiumRun] at h
      exact ih _ _ _ h
    | opEvict k =>
      simp only [elysiumRun] at h
      rcases hs : elysiumEvict st k with _ | ⟨b, st2⟩ <;> rw [hs] at h
      · simp at h
      · exact (ih _ _ _ h).trans (elysiumEvict_pres _ _ _ _ hs).1

theorem asphodelRun_size (ops : List TierOp) :
    ∀ (st st1 : AsphodelTier), asphodelRun st ops = some st1 →
      st1.current_size = st.current_size := by
  induction ops with
  | nil =>
    intro st st1 h
    simp [asphodelRun] at h
    rw [← h]
  | cons op rest ih =>
    intro st st1 h
    cases op with
    | opStore k v m =>
      simp only [asphodelRun] at h
      rcases hs : asphodelStore st k v m with st2 | _ | st2 <;> rw [hs] at h
      · exact (ih _ _ h).trans (asphodelStore_pres_ok _ _ _ _ _ hs).1
      · simp at h
      · simp at h
    | opRetrieve k =>
      simp only [asphodelRun] at h
      exact ih _ _ h
    | opEvict k =>
      simp only [asphodelRun] at h
      rcases hs : asphodelEvict st k with _ | ⟨b, st2⟩ <;> rw [hs] at h
      · simp at h
      · exact (ih _ _ h).trans (asphodelEvict_pres _ _ _ _ hs).1

theorem tartarusRun_size (ops : List TierOp) :
    ∀ (st st1 : TartarusTier), tartarusRun st ops = some st1 →
      st1.current_size = st.current_size := by
  induction ops with
  | nil =>
    intro st st1 h
    simp [tartarusRun] at h
    rw [← h]
  | cons op rest ih =>
    intro st st1 h
    cases op with
    | opStore k v m =>
      simp only [tartarusRun] at h
      rcases hs : tartarusStoreHades st k v m with _ | ⟨b, st2⟩ <;> rw [hs] at h
      · simp at h
      · exact (ih _ _ h).trans (tartarusStoreHades_pres _ _ _ _ _ _ hs).1
    | opRetrieve k =>
      simp only [tartarusRun] at h
      exact ih _ _ h
    | opEvict k =>
      simp only [tartarusRun] at h
      rcases hs : tartarusEvict st k with _ | ⟨b, st2⟩ <;> rw [hs] at h
      · simp at h
      · exact (ih _ _ h).trans (tartarusEvict_pres _ _ _ _ hs).1

theorem letheRun_size (ops : List TierOp) :
    ∀ (st : LetheTier), (letheRun st ops).current_size = st.current_size := by
  induction ops with
  | nil => intro st; simp [letheRun]
  | cons op rest ih =>
    intro st
    cases op with
    | opStore k v m =>
      simp only [letheRun]
      exact (ih _).trans (letheStore_pres st k v m)
    | opRetrieve k =>
      simp only [letheRun]
      exact ih st
    | opEvict k =>
      simp only [letheRun]
      exact (ih _).trans (letheEvict_pres st k)

theorem elysiumStore_admits (st : ElysiumTier) (k : String) (v : PyVal)
    (m : Option ContextMetadata) (hl : st.locked = false)
    (hz : st.current_size = 0) (hm : 0 < st.max_size) :
    ∃ st1, elysiumStore st k v m = some (true, st1) ∧ st1.locked = false ∧
      st1.current_size = 0 ∧ st1.max_size = st.max_size := by
  have hc : ¬ st.max_size ≤ st.current_size := by
    rw [hz]
    exact not_le.mpr hm
  cases m with
  | some mm =>
    refine ⟨{ st with data := dset st.data k v, meta := dset st.meta k mm },
      ?_, hl, hz, rfl⟩
    simp [elysiumStore, hl, hc]
  | none =>
    refine ⟨{ st with data := dset st.data k v }, ?_, hl, hz, rfl⟩
    simp [elysiumStore, hl, hc]

theorem elysiumEvict_completes (st : ElysiumTier) (k : String)
    (hl : st.locked = false) (hz : st.current_size = 0) :
    ∃ b st1, elysiumEvict st k = some (b, st1) ∧ st1.locked = false ∧
      st1.current_size = 0 ∧ st1.max_size = st.max_size := by
  by_cases hd : dhas st.data k
  · exact ⟨true, { st with data := ddel st.data k, meta := ddel st.meta k },
      by simp [elysiumEvict, hl, hd], hl, hz, rfl⟩
  · exact ⟨false, st, by simp [elysiumEvict, hl, hd], hl, hz, rfl⟩

theorem elysiumRun_all_admitted (ops : List TierOp) :
    ∀ (st : ElysiumTier), st.locked = false → st.current_size = 0 →
      0 < st.max_size →
      ∃ st1 rs, elysiumRun st ops = some (st1, rs) ∧ st1.current_size = 0 ∧
        ∀ b ∈ rs, b = true := by
  induction ops with
  | nil =>
    intro st h1 h2 h3
    exact ⟨st, [], rfl, h2, by simp⟩
  | cons op rest ih =>
    intro st h1 h2 h3
    cases op with
    | opStore k v m =>
      obtain ⟨st2, hs, hl2, hz2, hmax2⟩ := elysiumStore_admits st k v m h1 h2 h3
      obtain ⟨st3, rs3, hr, hz3, hall⟩ := ih st2 hl2 hz2 (hmax2 ▸ h3)
      refine ⟨st3, true :: rs3, ?_, hz3, ?_⟩
      · simp [elysiumRun, hs, hr]
      · intro b hb
        rcases List.mem_cons.mp hb with rfl | hb
        · rfl
        · exact hall b hb
    | opRetrieve k =>
      obtain ⟨st3, rs3, hr, hz3, hall⟩ := ih st h1 h2 h3
      exact ⟨st3, rs3, by simp [elysiumRun, hr], hz3, hall⟩
    | opEvict k =>
      obtain ⟨b0, st2, hs, hl2, hz2, hmax2⟩ := elysiumEvict_completes st k h1 h2
      obtain ⟨st3, rs3, hr, hz3, hall⟩ := ih st2 hl2 hz2 (hmax2 ▸ h3)
      exact ⟨st3, rs3, by simp [elysiumRun, hs, hr], hz3, hall⟩

/-- Claim C10: no tier method ever assigns to `current_size`, so across any
sequence of store/retrieve/evict calls on any tier the counter keeps its
initial value (0 after `__init__`); consequently, on a hot tier with
`max_size > 0`, the capacity guard `current_size >= max_size` never fires
and every store in the sequence returns `True`, however many entries are
already present. -/
theorem claim_C10_current_size_constant :
    (∀ (ops : List TierOp) (st st1 : ElysiumTier) (rs : List Bool),
        elysiumRun st ops = some (st1, rs) → st1.current_size = st.current_size) ∧
    (∀ (ops : List TierOp) (st st1 : AsphodelTier),
        asphodelRun st ops = some st1 → st1.current_size = st.current_size) ∧
    (∀ (ops : List TierOp) (st st1 : TartarusTier),
        tartarusRun st ops = some st1 → st1.current_size = st.current_size) ∧
    (∀ (ops : List TierOp) (st : LetheTier),
        (letheRun st ops).current_size = st.current_size) ∧
    (∀ (ops : List TierOp) (st : ElysiumTier), st.locked = false →
        st.current_size = 0 → 0 < st.max_size →
        ∃ st1 rs, elysiumRun st ops = some (st1, rs) ∧ st1.current_size = 0 ∧
          ∀ b ∈ rs, b = true) :=
  ⟨fun ops => elysiumRun_size ops, fun ops => asphodelRun_size ops,
    fun ops => tartarusRun_size ops, fun ops => letheRun_size ops,
    fun ops => elysiumRun_all_admitted ops⟩

/-- Witness for C10 at a concrete input: a three-call sequence on a hot tier
of capacity 4 completes with `current_size` still 0. -/
theorem claim_C10_witness :
    (elysiumRun (ElysiumTier.init 4)
        [TierOp.opStore "a" (PyVal.str "x") none, TierOp.opEvict "a",
          TierOp.opStore "b" (PyVal.int 7) none]).map
      (fun p => p.1.current_size) = some 0 := by
  obtain ⟨st1, rs, hr, hz, -⟩ :=
    claim_C10_current_size_constant.2.2.2.2
      [TierOp.opStore "a" (PyVal.str "x") none, TierOp.opEvict "a",
        TierOp.opStore "b" (PyVal.int 7) none]
      (ElysiumTier.init 4) rfl rfl (by decide)
  rw [hr]
  simp [hz]

/-- Claim C4, counterexample: the olympus archive tier compresses string
values on store, so `store("k", "a b c d e f g h")` followed by
`retrieve("k")` returns `"a b g h"`, not a value equal to what was stored. -/
theorem claim_C4_counterexample :
    (tartarusStoreOly (TartarusTier.init none) "k"
          (PyVal.str "a b c d e f g h") none).map
        (fun r => dget r.2.1.data "k") = some (some (PyVal.str "a b g h")) ∧
      PyVal.str "a b g h" ≠ PyVal.str "a b c d e f g h" := by
  constructor
  · have h1 : splitWs "a b c d e f g h" = ["a", "b", "c", "d", "e", "f", "g", "h"] := by
      decide
    have h2 : compress 16 ["a", "b", "c", "d", "e", "f", "g", "h"] 4 =
        some (["a", "b", "g", "h"], [13/20, 23/40, 23/40, 13/20]) := by
      norm_num +decide [compress, tokenScores, sortDesc, insertDesc, List.enum,
        List.enumFrom, countTok, List.get?]
    have h3 : joinSpace ["a", "b", "g", "h"] = "a b g h" := by decide
    simp [tartarusStoreOly, TartarusTier.init, h1, h2, h3, dset, dget]
  · decide

/-- Claim C4 as amended: `store(key, value)` immediately followed by
`retrieve(key)` returns a value equal to `value` for the hot tier (when the
store was admitted), the warm tier (when the store completed), the hades
archive tier, the olympus archive tier for non-string values, and the cold
tier (when the backing store does not fail); for string values the olympus
archive tier instead returns the space-join of the compressed token
selection, which in general differs from the stored string. -/
theorem claim_C4_amended :
    (∀ (st : ElysiumTier) (k : String) (v : PyVal) (m : Option ContextMetadata)
        (b : Bool) (st1 : ElysiumTier), elysiumStore st k v m = some (b, st1) →
        b = true → elysiumRetrieve st1 k = some v) ∧
    (∀ (st : AsphodelTier) (k : String) (v : PyVal) (m : Option ContextMetadata)
        (st1 : AsphodelTier), asphodelStore st k v m = AsphStoreRes.ok st1 →
        asphodelRetrieve st1 k = some v) ∧
    (∀ (st : TartarusTier) (k : String) (v : PyVal) (m : Option ContextMetadata)
        (b : Bool) (st1 : TartarusTier), tartarusStoreHades st k v m = some (b, st1) →
        tartarusRetrieve st1 k = some v) ∧
    (∀ (st : TartarusTier) (k : String) (n : Int) (m : Option ContextMetadata) r,
        tartarusStoreOly st k (PyVal.int n) m = some r →
        tartarusRetrieve r.2.1 k = some (PyVal.int n)) ∧
    (∀ (st : TartarusTier) (k s : String) (m : Option ContextMetadata) r,
        tartarusStoreOly st k (PyVal.str s) m = some r →
        ∃ ct sc, compress 16 (splitWs s) 4 = some (ct, sc) ∧
          tartarusRetrieve r.2.1 k = some (PyVal.str (joinSpace ct))) ∧
    (∀ (st : LetheTier) (k : String) (v : PyVal) (m : Option ContextMetadata),
        st.db.failStore = false → st.db.failRetrieve = false →
        letheRetrieve (letheStore st k v m).2 k = some v) := by
  refine ⟨?_, ?_, ?_, ?_, ?_, ?_⟩
  · intro st k v m b st1 h hb
    subst hb
    unfold elysiumStore at h
    by_cases hl : st.locked
    · simp [hl] at h
    · by_cases hc : st.max_size ≤ st.current_size
      · simp [hl, hc] at h
      · cases m with
        | some mm =>
          simp [hl, hc] at h
          rw [← h]
          simp [elysiumRetrieve, dget_dset_self]
        | none =>
          simp [hl, hc] at h
          rw [← h]
          simp [elysiumRetrieve, dget_dset_self]
  · intro st k v m st1 h
    unfold asphodelStore at h
    by_cases hl : st.locked
    · simp [hl] at h
    · by_cases hw : st.window_size ≤ st.data.length
      · rcases hmin : minByLastAccess st.meta with _ | ⟨ok, ov⟩
        · simp [hl, hw, hmin] at h
        · simp [hl, hw, hmin, asphodelEvict] at h
      · cases m with
        | some mm =>
          simp [hl, hw] at h
          rw [← h]
          simp [asphodelRetrieve, dget_dset_self]
        | none =>
          simp [hl, hw] at h
          rw [← h]
          simp [asphodelRetrieve, dget_dset_self]
  · intro st k v m b st1 h
    unfold tartarusStoreHades at h
    by_cases hl : st.locked
    · simp [hl] at h
    · cases m with
      | some mm =>
        simp [hl] at h
        rw [← h.2]
        simp [tartarusRetrieve, dget_dset_self]
      | none =>
        simp [hl] at h
        rw [← h.2]
        simp [tartarusRetrieve, dget_dset_self]
  · intro st k n m r h
    unfold tartarusStoreOly at h
    by_cases hl : st.locked
    · simp [hl] at h
    · cases m with
      | some mm =>
        simp [hl] at h
        rw [← h]
        simp [tartarusRetrieve, dget_dset_self]
      | none =>
        simp [hl] at h
        rw [← h]
        simp [tartarusRetrieve, dget_dset_self]
  · intro st k s m r h
    unfold tartarusStoreOly at h
    by_cases hl : st.locked
    · simp [hl] at h
    · rcases hcp : compress 16 (splitWs s) 4 with _ | ⟨ct, sc⟩
      · simp [hl, hcp] at h
      · refine ⟨ct, sc, rfl, ?_⟩
        cases m with
        | some mm =>
          simp [hl, hcp] at h
          rw [← h]
          simp [tartarusRetrieve, dget_dset_self]
        | none =>
          simp [hl, hcp] at h
          rw [← h]
          simp [tartarusRetrieve, dget_dset_self]
  · intro st k v m h1 h2
    unfold letheStore letheRetrieve
    simp [h1, h2, dget_dset_self]

/-- Witness for C4 at concrete inputs: the empty string round-trips through
the hot tier, and `"v"` round-trips through the cold tier with a healthy
backing store. -/
theorem claim_C4_amended_witness :
    elysiumRetrieve { ElysiumTier.init 4 with data := [("k", PyVal.str "")] }
        "k" = some (PyVal.str "") ∧
      letheRetrieve
        (letheStore (LetheTier.init none
          { table := [], failStore := false, failRetrieve := false,
            failDelete := false }) "k" (PyVal.str "v") none).2 "k" =
        some (PyVal.str "v") := by
  constructor
  · exact claim_C4_amended.1 (ElysiumTier.init 4) "k" (PyVal.str "") none true
      { ElysiumTier.init 4 with data := [("k", PyVal.str "")] } rfl rfl
  · exact claim_C4_amended.2.2.2.2.2 (LetheTier.init none
      { table := [], failStore := false, failRetrieve := false,
        failDelete := false }) "k" (PyVal.str "v") none rfl rfl

/-- Claim C9, counterexample: `TartarusTier.store` (olympus) edits the
caller's metadata object in place — after storing the 8-token string at
ratio 4, the very object the caller passed has `tokens` overwritten to the
compressed selection and `compression_ratio` set to 4, so its fields are not
all unchanged. -/
theorem claim_C9_counterexample :
    (tartarusStoreOly (TartarusTier.init none) "k"
          (PyVal.str "a b c d e f g h")
          (some { tokens := [], semantics := [], last_access := 0,
                  access_count := 0 })).map (fun r => r.2.2) =
        some (some { tokens := ["a", "b", "g", "h"], semantics := [],
                     last_access := 0, access_count := 0,
                     compression_ratio := some 4 }) ∧
      (some { tokens := ["a", "b", "g", "h"], semantics := [],
              last_access := 0, access_count := 0,
              compression_ratio := some 4 } : Option ContextMetadata) ≠
        some { tokens := [], semantics := [], last_access := 0,
               access_count := 0 } := by
  constructor
  · have h1 : splitWs "a b c d e f g h" = ["a", "b", "c", "d", "e", "f", "g", "h"] := by
      decide
    have h2 : compress 16 ["a", "b", "c", "d", "e", "f", "g", "h"] 4 =
        some (["a", "b", "g", "h"], [13/20, 23/40, 23/40, 13/20]) := by
      norm_num +decide [compress, tokenScores, sortDesc, insertDesc, List.enum,
        List.enumFrom, countTok, List.get?]
    simp [tartarusStoreOly, TartarusTier.init, h1, h2]
  · decide

/-- Claim C9 as amended: metadata is mutated in place at exactly two spots —
the olympus archive `store` on a string value overwrites precisely `tokens`
and `compression_ratio` on the caller's metadata object (all other fields
keep their values; non-string stores leave the object untouched), and the
manager's `retrieve` on an archive hit increments `access_count` in place
before the object is stored into the warm tier. -/
theorem claim_C9_amended :
    (∀ (st : TartarusTier) (k s : String) (m : ContextMetadata) r,
        tartarusStoreOly st k (PyVal.str s) (some m) = some r →
        ∃ ct sc, compress 16 (splitWs s) 4 = some (ct, sc) ∧
          r.2.2 = some { m with tokens := ct, compression_ratio := some 4 }) ∧
    (∀ (st : TartarusTier) (k : String) (n : Int) (m : Option ContextMetadata) r,
        tartarusStoreOly st k (PyVal.int n) m = some r → r.2.2 = m) ∧
    (∀ (st : MemoryManager) (key : String) (v : PyVal) (m : ContextMetadata),
        elysiumRetrieve st.elysium key = none →
        asphodelRetrieve st.asphodel key = none →
        tartarusRetrieve st.tartarus key = some v →
        v.truthy = true →
        tartarusGetMetadata st.tartarus key = some m →
        st.asphodel.locked = false →
        st.asphodel.data.length < st.asphodel.window_size →
        st.tartarus.locked = false →
        ∃ st1, managerRetrieve st key = MRes.ok (some v, some "tartarus") st1 ∧
          dget st1.asphodel.meta key =
            some { m with access_count := m.access_count + 1 }) := by
  refine ⟨?_, ?_, ?_⟩
  · intro st k s m r h
    unfold tartarusStoreOly at h
    by_cases hl : st.locked
    · simp [hl] at h
    · rcases hcp : compress 16 (splitWs s) 4 with _ | ⟨ct, sc⟩
      · simp [hl, hcp] at h
      · refine ⟨ct, sc, rfl, ?_⟩
        simp [hl, hcp] at h
        rw [← h]
  · intro st k n m r h
    unfold tartarusStoreOly at h
    by_cases hl : st.locked
    · simp [hl] at h
    · cases m with
      | some mm =>
        simp [hl] at h
        rw [← h]
      | none =>
        simp [hl] at h
        rw [← h]
  · intro st key v m h1 h2 h3 h4 h5 h6 h7 h8
    have hw : ¬ st.asphodel.window_size ≤ st.asphodel.data.length := not_le.mpr h7
    have hstore : asphodelStore st.asphodel key v
        (some { m with access_count := m.access_count + 1 }) =
        AsphStoreRes.ok { st.asphodel with
          data := dset st.asphodel.data key v,
          meta := dset st.asphodel.meta key
            { m with access_count := m.access_count + 1 },
          locked := false } := by
      unfold asphodelStore
      simp [h6, hw]
    have hd : dhas st.tartarus.data key = true := by
      unfold tartarusRetrieve at h3
      simp [dhas, h3]
    have h5' : dget st.tartarus.meta key = some m := h5
    simp only [managerRetrieve, managerRetrieveAsphodel, managerRetrieveTartarus,
      h1, h2, h3, h4, h5, h5', if_true, managerStore, hstore, tartarusEvict,
      updateStatsRaises, h8, hd, Bool.false_eq_true, if_false]
    exact ⟨_, rfl, by rw [dget_dset_self]⟩

/-- Witness for C9 at a concrete input: storing the two-token string
`"a b"` (short enough to pass through compression unchanged) still rewrites
the caller's metadata in place, setting `tokens` and `compression_ratio`. -/
theorem claim_C9_amended_witness :
    (tartarusStoreOly (TartarusTier.init none) "k" (PyVal.str "a b")
          (some { tokens := [], semantics := [], last_access := 0,
                  access_count := 0 })).map (fun r => r.2.2) =
      some (some { tokens := ["a", "b"], semantics := [], last_access := 0,
                   access_count := 0, compression_ratio := some 4 }) := by
  obtain ⟨ct, sc, hcp, hmeta⟩ :=
    claim_C9_amended.1 (TartarusTier.init none) "k" "a b"
      { tokens := [], semantics := [], last_access := 0, access_count := 0 }
      (true,
        { TartarusTier.init none with
            data := [("k", PyVal.str "a b")],
            meta := [("k", { tokens := ["a", "b"], semantics := [],
                             last_access := 0, access_count := 0,
                             compression_ratio := some 4 })] },
        some { tokens := ["a", "b"], semantics := [], last_access := 0,
               access_count := 0, compression_ratio := some 4 })
      rfl
  have h2 : compress 16 (splitWs "a b") 4 =
      some (["a", "b"], ([1, 1] : List ℚ)) := rfl
  rw [h2] at hcp
  simp only [Option.some.injEq, Prod.mk.injEq] at hcp
  have hst : tartarusStoreOly (TartarusTier.init none) "k" (PyVal.str "a b")
      (some { tokens := [], semantics := [], last_access := 0,
              access_count := 0 }) =
      some (true,
        { TartarusTier.init none with
            data := [("k", PyVal.str "a b")],
            meta := [("k", { tokens := ["a", "b"], semantics := [],
                             last_access := 0, access_count := 0,
                             compression_ratio := some 4 })] },
        some { tokens := ["a", "b"], semantics := [], last_access := 0,
               access_count := 0, compression_ratio := some 4 }) := rfl
  rw [hst]
  simp only [Option.map_some']

/-- Claim C3, counterexample: with a hot tier that rejects the store
(`max_size = 0`), retrieving the warm key `"k"` (access_count 6) still evicts
it from the warm tier — the manager's evict call is unconditional — so
afterwards the key is in neither the hot nor the warm map: the entry does
not "stay present in Warm" as the claim states. -/
theorem claim_C3_counterexample :
    mresVal (managerRetrieve c3RejectState "k") =
        some (some (PyVal.str "v"), some "asphodel") ∧
      (mresState (managerRetrieve c3RejectState "k")).map
        (fun st => (dget st.elysium.data "k", dget st.asphodel.data "k")) =
        some (none, none) := by
  constructor <;> rfl

/-- Claim C3 as amended: on a warm hit with `access_count > 5` the manager
stores into the hot tier and then evicts from the warm tier
*unconditionally*.  When the hot tier admits, the key is afterwards
retrievable from hot and absent from warm (the store-before-evict ordering
the claim describes); but when hot's admission control rejects the store,
the entry is evicted from warm anyway and is afterwards in neither tier —
it does not stay in Warm. -/
theorem claim_C3_promotion_store_then_unconditional_evict :
    (∀ (st : MemoryManager) (key : String) (v : PyVal) (m : ContextMetadata),
      elysiumRetrieve st.elysium key = none →
      asphodelRetrieve st.asphodel key = some v →
      v.truthy = true →
      dget st.asphodel.meta key = some m →
      5 < m.access_count →
      st.elysium.locked = false →
      st.asphodel.locked = false →
      st.elysium.current_size < st.elysium.max_size →
      ∃ st1, managerRetrieve st key = MRes.ok (some v, some "asphodel") st1 ∧
        dget st1.elysium.data key = some v ∧
        dget st1.asphodel.data key = none ∧
        managerRetrieve st1 key = MRes.ok (some v, some "elysium") st1) ∧
    (∀ (st : MemoryManager) (key : String) (v : PyVal) (m : ContextMetadata),
      elysiumRetrieve st.elysium key = none →
      asphodelRetrieve st.asphodel key = some v →
      v.truthy = true →
      dget st.asphodel.meta key = some m →
      5 < m.access_count →
      st.elysium.locked = false →
      st.asphodel.locked = false →
      st.elysium.max_size ≤ st.elysium.current_size →
      ∃ st1, managerRetrieve st key = MRes.ok (some v, some "asphodel") st1 ∧
        dget st1.elysium.data key = none ∧
        dget st1.asphodel.data key = none) := by
  constructor
  · intro st key v m h1 h2 h3 h4 h5 h6 h7 h8
    have helys : elysiumStore st.elysium key v (some m) =
        some (true,
          { st.elysium with
              data := dset st.elysium.data key v,
              meta := dset st.elysium.meta key m }) := by
      unfold elysiumStore
      simp [h6, not_le.mpr h8]
    have hd : dhas st.asphodel.data key = true := by
      unfold asphodelRetrieve at h2
      simp [dhas, h2]
    simp only [managerRetrieve, managerRetrieveAsphodel, h1, h2, h3, h4, h5,
      if_true, managerStore, helys, asphodelEvict, h7, hd, updateStatsRaises,
      Bool.false_eq_true, if_false]
    refine ⟨_, rfl, ?_, ?_, ?_⟩
    · rw [dget_dset_self]
    · rw [dget_ddel_self]
    · have hget : elysiumRetrieve
          { st.elysium with
              data := dset st.elysium.data key v,
              meta := dset st.elysium.meta key m } key = some v := by
        unfold elysiumRetrieve
        rw [dget_dset_self]
      simp only [managerRetrieve, hget, h3, if_true]
  · intro st key v m h1 h2 h3 h4 h5 h6 h7 h8
    have helys : elysiumStore st.elysium key v (some m) =
        some (false, st.elysium) := by
      unfold elysiumStore
      simp [h6, h8]
    have hd : dhas st.asphodel.data key = true := by
      unfold asphodelRetrieve at h2
      simp [dhas, h2]
    simp only [managerRetrieve, managerRetrieveAsphodel, h1, h2, h3, h4, h5,
      if_true, managerStore, helys, asphodelEvict, h7, hd, updateStatsRaises,
      Bool.false_eq_true, if_false]
    refine ⟨_, rfl, ?_, ?_⟩
    · unfold elysiumRetrieve at h1
      exact h1
    · rw [dget_ddel_self]

/-- Witness for C3 at a concrete input: with a hot tier of capacity 1, the
warm entry `"k" -> "v"` (access_count 6) is promoted on retrieve — the value
comes back with tier name `asphodel`, and afterwards the key lives in hot
and is gone from warm. -/
theorem claim_C3_amended_witness :
    mresVal (managerRetrieve c3AdmitState "k") =
        some (some (PyVal.str "v"), some "asphodel") ∧
      (mresState (managerRetrieve c3AdmitState "k")).map
        (fun s => (dget s.elysium.data "k", dget s.asphodel.data "k")) =
        some (some (PyVal.str "v"), none) := by
  obtain ⟨st1, hret, hhot, hwarm, hnext⟩ :=
    claim_C3_promotion_store_then_unconditional_evict.1 c3AdmitState "k"
      (PyVal.str "v")
      { tokens := [], semantics := [], last_access := 0, access_count := 6 }
      rfl rfl rfl rfl (by decide) rfl rfl (by decide)
  rw [hret]
  exact ⟨rfl, by simp [mresState, hhot, hwarm]⟩

/-- Claim C8, counterexample: a failure in the memory-context step does not
yield the empty result list.  With the memory-context fault injected (its
handler returns the empty dict and the search continues), one vector-index
candidate with score 1 survives reranking at `context_boost = 0.3` with
combined score 0.7 >= 0.5, so `hybrid_search` returns a non-empty list. -/
theorem claim_C8_counterexample :
    hybrid_search Settings.default { memoryF := true } safeDefaultAnalysis
        (some [1]) (fun _ => (none, none))
        (fun _ _ _ => [{ rid := "r1", vector_score := 1, meta := {} }])
        10 (1/2) (3/10) =
      Except.ok [{ rid := "r1", combined_score := 7/10, meta := {},
                   context_score := 0 }] ∧
      ([{ rid := "r1", combined_score := 7/10, meta := {},
          context_score := 0 }] : List RankedCand) ≠ [] := by
  constructor
  · norm_num [hybrid_search, hybridSearchBody, analyzeContextStep,
      getQueryVector, getMemoryContext, build_metadata_filter, rerank_results,
      calculate_context_score, interCard, dedupStr, sortDescBy, insertDescBy,
      safeDefaultAnalysis]
  · simp

/-- Claim C8 as amended: `hybrid_search` never propagates an exception — its
outer handler turns any escaping failure into a normal empty-list return —
and a query-embedding failure (either the step raising or the provider
returning `None`) or a vector-index search failure does produce the empty
list.  Failures in context analysis, memory-context gathering, filter
construction, or reranking are instead absorbed by those steps' own handlers
(safe-default analysis, empty context, empty filter, vector-order fallback)
and the search continues, possibly returning non-empty results. -/
theorem claim_C8_never_raises_embed_search_empty :
    ∀ (s : Settings) (faults : HybridFaults) (ar : Core.AnalysisResult)
      (er : Option (List ℚ)) (ro : String → Option PyVal × Option String)
      (so : List ℚ → Nat → MetadataFilter → List Cand) (top_k : Nat)
      (min_relevance context_boost : ℚ),
      (∃ l, hybrid_search s faults ar er ro so top_k min_relevance
        context_boost = Except.ok l) ∧
      (faults.embedF = true ∨ faults.searchF = true →
        hybrid_search s faults ar er ro so top_k min_relevance context_boost =
          Except.ok []) ∧
      (er = none →
        hybrid_search s faults ar er ro so top_k min_relevance context_boost =
          Except.ok []) := by
  intro s faults ar er ro so top_k min_relevance context_boost
  refine ⟨?_, ?_, ?_⟩
  · rcases hb : hybridSearchBody s faults ar er ro so top_k min_relevance
        context_boost with e | l
    · exact ⟨[], by unfold hybrid_search; rw [hb]⟩
    · exact ⟨l, by unfold hybrid_search; rw [hb]⟩
  · intro hf
    rcases hf with hf | hf
    · unfold hybrid_search hybridSearchBody getQueryVector
      simp [hf]
    · unfold hybrid_search hybridSearchBody
      cases hq : getQueryVector faults.embedF er with
      | none => simp [hq]
      | some qv => simp [hq, hf]
  · intro he
    unfold hybrid_search hybridSearchBody getQueryVector
    cases hf : faults.embedF <;> simp [hf, he]

/-- Witness for C8 at a concrete input: with the embedding step failing,
`hybrid_search` returns the empty list (as a normal return). -/
theorem claim_C8_witness :
    hybrid_search Settings.default { embedF := true } safeDefaultAnalysis
        (some [1]) (fun _ => (none, none)) (fun _ _ _ => []) 10 (1/2) (3/10) =
      Except.ok [] :=
  (claim_C8_never_raises_embed_search_empty Settings.default { embedF := true }
    safeDefaultAnalysis (some [1]) (fun _ => (none, none)) (fun _ _ _ => [])
    10 (1/2) (3/10)).2.1 (Or.inl rfl)
